import Mathlib

/-!
Shallow embedding of `main.go` of the prometheus-trusted-advisor-exporter.

The program polls the AWS Trusted Advisor API and republishes each check's
latest result as a labeled Prometheus gauge.  We embed:

* the data model (`TrustedAdvisorCheckDescription`, `TrustedAdvisorCheckResult`,
  label tuples, the gauge set as an association list),
* the gauge-vector operations used by the code (`DeleteLabelValues`,
  `WithLabelValues(...).Add(...)`),
* `refreshSpecificCheck`, `refreshChecks`, `refreshChecksPeriodically`,
  `getEnv` and the configuration-reading prefix of `main`.

External collaborators (the AWS client, `strconv.Atoi`, `time.NewTicker`) are
embedded through their call results: a fetch is a parameter delivering the
value the one API call in the source would return; `Atoi` is modelled
character by character after Go's base-10 `ParseInt`; `NewTicker`'s contract
(panic on a non-positive duration) is recorded as an outcome.
-/

/-- Trusted Advisor statuses, `var Statuses = []string{...}` in `main.go`. -/
def Statuses : List String := ["ok", "warning", "error", "not_available"]

/-- One check as listed by `DescribeTrustedAdvisorChecks`: id, name, category
(the three fields of the AWS check description that `main.go` reads). -/
structure TrustedAdvisorCheckDescription where
  id : String
  name : String
  category : String
deriving DecidableEq, Repr

/-- The `ResourcesSummary` of a check result; `ResourcesFlagged` is a nilable
`*int64` in the AWS SDK, hence an `Option Int` here. -/
structure TrustedAdvisorResourcesSummary where
  resourcesFlagged : Option Int
deriving DecidableEq, Repr

/-- A check result as returned by `DescribeTrustedAdvisorCheckResult`.
`main.go` reads the status string, the nilable resources summary, and the
length of the `FlaggedResources` slice (only its length is consumed, so the
elements are embedded as `Unit`). -/
structure TrustedAdvisorCheckResult where
  status : String
  resourcesSummary : Option TrustedAdvisorResourcesSummary
  flaggedResources : List Unit
deriving DecidableEq, Repr

/-- The label tuple of the gauge vector: label names `checkid`, `name`,
`category`, `status` as registered in `main`. -/
structure LabelTuple where
  checkid : String
  name : String
  category : String
  status : String
deriving DecidableEq, Repr

/-- The gauge vector's mutable state: a finite map from label tuple to gauge
value, embedded as an association list with at most one entry per tuple.
Values written by the program are integers (a flagged-resource count or a
slice length), so the value type is `Int`. -/
abbrev GaugeSet : Type := List (LabelTuple × Int)

/-- `taGaugeVec.DeleteLabelValues(...)`: remove the series with exactly this
label tuple, no-op when absent. -/
def deleteLabelValues (g : GaugeSet) (t : LabelTuple) : GaugeSet :=
  List.filter (fun p => !(decide (p.1 = t))) g

/-- `taGaugeVec.WithLabelValues(...).Add(v)`: get-or-create the series for the
tuple (a new gauge starts at 0), then add `v` to its value. -/
def gaugeAdd (g : GaugeSet) (t : LabelTuple) (v : Int) : GaugeSet :=
  if List.any g (fun p => decide (p.1 = t)) then
    List.map (fun p => if p.1 = t then (p.1, p.2 + v) else p) g
  else
    g ++ [(t, v)]

/-- The body of `refreshSpecificCheck` in `main.go`, as a function of the
result of its single `DescribeTrustedAdvisorCheckResult` call.  On error it
logs and returns, leaving the gauge untouched.  On success it deletes the
tuple of every status in `Statuses`, then adds the fetched value to the
fetched status's tuple: the explicit `ResourcesFlagged` count when the
summary and the count are both present, the length of `FlaggedResources`
otherwise. -/
def refreshSpecificCheck (fetchResult : Except String TrustedAdvisorCheckResult)
    (checkId checkName checkCategory : String) (g : GaugeSet) : GaugeSet :=
  match fetchResult with
  | .error _ => g
  | .ok result =>
    let g1 := Statuses.foldl
      (fun acc s => deleteLabelValues acc ⟨checkId, checkName, checkCategory, s⟩) g
    match result.resourcesSummary with
    | some rs =>
      match rs.resourcesFlagged with
      | some n =>
        gaugeAdd g1 ⟨checkId, checkName, checkCategory, result.status⟩ n
      | none =>
        gaugeAdd g1 ⟨checkId, checkName, checkCategory, result.status⟩
          (result.flaggedResources.length : Int)
    | none =>
      gaugeAdd g1 ⟨checkId, checkName, checkCategory, result.status⟩
        (result.flaggedResources.length : Int)

/-- The value `refreshSpecificCheck` writes for a successfully fetched
result: the explicit flagged count when present, else the length of the
flagged-resources slice. -/
def magnitude (result : TrustedAdvisorCheckResult) : Int :=
  match result.resourcesSummary with
  | some rs =>
    match rs.resourcesFlagged with
    | some n => n
    | none => (result.flaggedResources.length : Int)
  | none => (result.flaggedResources.length : Int)

/-- `refreshSpecificCheck` instrumented with the fetch attempts it makes and
the backoff sleeps it performs.  The source contains exactly one call to
`DescribeTrustedAdvisorCheckResult` (line 48) and no `time.Sleep`, so the
oracle `fetch` is consulted once at attempt index 0, the attempt count is 1
and the recorded list of sleep durations (in seconds) is empty. -/
def refreshSpecificCheckTraced (fetch : Nat → Except String TrustedAdvisorCheckResult)
    (checkId checkName checkCategory : String) (g : GaugeSet) :
    GaugeSet × Nat × List Nat :=
  (refreshSpecificCheck (fetch 0) checkId checkName checkCategory g, 1, [])

/-- What `refreshChecks` does before returning: `log.Fatalf` (process exit)
when the listing call fails, otherwise one `go refreshSpecificCheck(...)`
statement per listed check.  A `go` statement only spawns the goroutine; the
spawned work need not have run by the time `refreshChecks` returns, so the
outcome records the gauge set as `refreshChecks` itself leaves it (unchanged)
together with the list of spawned per-check tasks. -/
inductive RefreshOutcome where
  | fatal (err : String)
  | returned (gaugeAtReturn : GaugeSet) (spawnedTasks : List TrustedAdvisorCheckDescription)
deriving DecidableEq, Repr

/-- The spawned-task list of an outcome (empty when the process died). -/
def RefreshOutcome.spawned : RefreshOutcome → List TrustedAdvisorCheckDescription
  | .fatal _ => []
  | .returned _ ts => ts

/-- `refreshChecks` in `main.go`, as a function of the result of its single
`DescribeTrustedAdvisorChecks` call and of the gauge set at entry.  A listing
error reaches `log.Fatalf` unconditionally; a successful listing spawns one
goroutine per check and returns at once. -/
def refreshChecks (listing : Except String (List TrustedAdvisorCheckDescription))
    (g : GaugeSet) : RefreshOutcome :=
  match listing with
  | .error e => .fatal e
  | .ok checks => .returned g checks

/-- One firing of the ticker inside `refreshChecksPeriodically`: the body of
the `for range ticker.C` loop is exactly a call to `refreshChecks`. -/
def periodicTick (listing : Except String (List TrustedAdvisorCheckDescription))
    (g : GaugeSet) : RefreshOutcome :=
  refreshChecks listing g

/-- The gauge set after every spawned per-check task has run to completion,
one after the other (a complete, uninterrupted cycle): each task is
`refreshSpecificCheck` on its check, with `fetch` delivering the result of
that check's API call. -/
def runCycle (fetch : String → Except String TrustedAdvisorCheckResult)
    (checks : List TrustedAdvisorCheckDescription) (g : GaugeSet) : GaugeSet :=
  checks.foldl (fun acc c => refreshSpecificCheck (fetch c.id) c.id c.name c.category acc) g

/-- `getEnv` in `main.go`: the environment value when the variable is set,
the fallback otherwise.  The process environment is a partial map from
variable name to value. -/
def getEnv (env : String → Option String) (key fallback : String) : String :=
  match env key with
  | some value => value
  | none => fallback

/-- Go's `strconv.Atoi`: an optional single `+` or `-` sign followed by at
least one decimal digit, the value required to fit a 64-bit `int`; anything
else is an error (syntax or range). -/
def atoi (s : String) : Except String Int :=
  let cs := s.data
  let signed : Bool × List Char :=
    match cs with
    | '+' :: rest => (false, rest)
    | '-' :: rest => (true, rest)
    | rest => (false, rest)
  let neg := signed.1
  let digits := signed.2
  if digits.isEmpty then
    .error "invalid syntax"
  else if digits.all Char.isDigit then
    let n : Nat := digits.foldl (fun a c => a * 10 + (c.toNat - 48)) 0
    let v : Int := if neg then -(n : Int) else (n : Int)
    if -(2 ^ 63) ≤ v ∧ v ≤ 2 ^ 63 - 1 then
      .ok v
    else
      .error "value out of range"
  else
    .error "invalid syntax"

/-- The configuration-reading prefix of `main` (lines 103-108): listen
address from `LISTEN_ADDR` with fallback `":2112"`, refresh period from
`REFRESH_PERIOD` with fallback `"300"` converted by `Atoi`; a conversion
error reaches `log.Fatalf`.  No other configuration is read. -/
def mainReadConfig (env : String → Option String) : Except String (String × Int) :=
  let listenAddr := getEnv env "LISTEN_ADDR" ":2112"
  let refreshPeriodStr := getEnv env "REFRESH_PERIOD" "300"
  match atoi refreshPeriodStr with
  | .ok refreshPeriod => .ok (listenAddr, refreshPeriod)
  | .error e => .error ("cannot convert REFRESH_PERIOD to int: " ++ e)

/-- The first step of `refreshChecksPeriodically`:
`time.NewTicker(time.Duration(period) * time.Second)`.  Go's `time.NewTicker`
panics when its duration is not positive, so a non-positive period panics
before any tick; otherwise the ticker runs with the given period. -/
inductive SchedulerStart where
  | panicked
  | ticking (periodSeconds : Int)
deriving DecidableEq, Repr

/-- `refreshChecksPeriodically`'s ticker construction on its `period`
argument (seconds). -/
def refreshChecksPeriodicallyStart (period : Int) : SchedulerStart :=
  if period ≤ 0 then .panicked else .ticking period

/-- Whether a fetched result carries an explicit flagged-resource count: the
`result.ResourcesSummary != nil && result.ResourcesSummary.ResourcesFlagged != nil`
condition of `main.go`. -/
def hasExplicitFlaggedCount (result : TrustedAdvisorCheckResult) : Bool :=
  match result.resourcesSummary with
  | some rs => rs.resourcesFlagged.isSome
  | none => false

/-- `refreshSpecificCheck` on a successful fetch clears the tuple of every
enumerated status and then adds the magnitude to the fetched status's tuple. -/
theorem refreshSpecificCheck_ok (result : TrustedAdvisorCheckResult)
    (checkId checkName checkCategory : String) (g : GaugeSet) :
    refreshSpecificCheck (.ok result) checkId checkName checkCategory g
      = gaugeAdd
          (Statuses.foldl
            (fun acc s => deleteLabelValues acc ⟨checkId, checkName, checkCategory, s⟩) g)
          ⟨checkId, checkName, checkCategory, result.status⟩ (magnitude result) := by
  rcases result with ⟨st, summ, fl⟩
  rcases summ with _ | ⟨⟨flagged⟩⟩
  · rfl
  · rcases flagged with _ | n <;> rfl

/-- C1 counterexample: with a fetch that fails, the Check Refresher makes
exactly 1 attempt (not 3) and performs no backoff sleep (not 1s then 2s)
before abandoning the check. -/
theorem no_retry_counterexample :
    refreshSpecificCheckTraced (fun _ => .error "request failed")
        "A" "Check A" "cost_optimizing" [] = ([], 1, [])
    ∧ (1 : Nat) ≠ 3 ∧ ([] : List Nat) ≠ [1, 2] :=
  ⟨rfl, by decide, by decide⟩

/-- C1 (amended): a failed result fetch is abandoned after a single attempt,
with no backoff sleep and no metric update: the gauge set is returned
unchanged, the attempt count is 1 and the sleep list is empty. -/
theorem single_attempt_no_backoff (fetch : Nat → Except String TrustedAdvisorCheckResult)
    (e : String) (checkId checkName checkCategory : String) (g : GaugeSet)
    (hfail : fetch 0 = .error e) :
    refreshSpecificCheckTraced fetch checkId checkName checkCategory g = (g, 1, []) := by
  simp [refreshSpecificCheckTraced, refreshSpecificCheck, hfail]

/-- C1 witness: the amended single-attempt behavior at a concrete failing
fetch. -/
theorem single_attempt_no_backoff_witness :
    refreshSpecificCheckTraced (fun _ => .error "timeout") "B" "Check B" "security"
        [(⟨"B", "Check B", "security", "ok"⟩, 4)]
      = ([(⟨"B", "Check B", "security", "ok"⟩, 4)], 1, []) :=
  single_attempt_no_backoff (fun _ => .error "timeout") "timeout" "B" "Check B" "security"
    [(⟨"B", "Check B", "security", "ok"⟩, 4)] rfl

/-- C3 counterexample: `refreshChecks` returns with the gauge set still empty
(no worker's effect visible at return) although the listing succeeded and the
spawned check's completed refresh would have produced a non-empty gauge set —
so it does not block until every worker has finished. -/
theorem fire_and_forget_counterexample :
    refreshChecks (.ok [⟨"A", "Check A", "cost_optimizing"⟩]) []
      = .returned [] [⟨"A", "Check A", "cost_optimizing"⟩]
    ∧ runCycle (fun _ => .ok ⟨"error", some ⟨some 3⟩, []⟩)
        [⟨"A", "Check A", "cost_optimizing"⟩] []
      = [(⟨"A", "Check A", "cost_optimizing", "error"⟩, 3)]
    ∧ ([] : GaugeSet) ≠ [(⟨"A", "Check A", "cost_optimizing", "error"⟩, 3)] :=
  ⟨rfl, by decide, by decide⟩

/-- C3 (amended): on a successful listing, `refreshChecks` spawns one
goroutine per listed check and returns immediately, without joining them: at
return the gauge set is exactly as it was at entry and all listed checks are
merely spawned tasks.  In particular the startup invocation does not
guarantee that the refresh work has completed before the HTTP listener
starts. -/
theorem refreshChecks_returns_without_join
    (checks : List TrustedAdvisorCheckDescription) (g : GaugeSet) :
    refreshChecks (.ok checks) g = .returned g checks := rfl

/-- C4 counterexample: with 11 listed checks, `refreshChecks` spawns 11
concurrent per-check tasks — more than the claimed pool bound of 10; there is
no worker pool and no pool-size configuration parameter. -/
theorem no_worker_pool_counterexample :
    (refreshChecks (.ok (List.replicate 11 ⟨"A", "N", "C"⟩)) []).spawned.length = 11
    ∧ ¬ ((11 : Nat) ≤ 10) :=
  ⟨by decide, by decide⟩

/-- C4 (amended): every listed check is spawned as its own concurrent
goroutine, so the number of simultaneously in-flight fetch tasks equals the
number of listed checks, unbounded by any pool; the configuration read by
`main` (`mainReadConfig`) has no worker-pool parameter. -/
theorem spawn_per_check_unbounded
    (checks : List TrustedAdvisorCheckDescription) (g : GaugeSet) :
    (refreshChecks (.ok checks) g).spawned.length = checks.length := rfl

/-- C5 counterexample: a listing failure on a periodic tick (after startup)
reaches `log.Fatalf` — the process-ending outcome — rather than a
log-and-skip outcome that would leave the process running. -/
theorem periodic_listing_failure_fatal_counterexample :
    periodicTick (.error "request failure") [(⟨"A", "N", "C", "ok"⟩, 1)]
      = .fatal "request failure"
    ∧ periodicTick (.error "request failure") [(⟨"A", "N", "C", "ok"⟩, 1)]
      ≠ .returned [(⟨"A", "N", "C", "ok"⟩, 1)] [] :=
  ⟨rfl, by decide⟩

/-- C5 (amended): a failure of the check-listing call is fatal on every
cycle: both the startup invocation of `refreshChecks` and every periodic tick
reach `log.Fatalf`, terminating the process instead of skipping the cycle. -/
theorem listing_failure_always_fatal (e : String) (g : GaugeSet) :
    refreshChecks (.error e) g = .fatal e ∧ periodicTick (.error e) g = .fatal e :=
  ⟨rfl, rfl⟩

/-- C6 counterexample: a successfully fetched result with no explicit
flagged-resource count but a flagged-resources slice of length 2 gets gauge
value 2, not 0. -/
theorem magnitude_default_counterexample :
    refreshSpecificCheck (.ok ⟨"ok", none, [(), ()]⟩) "A" "N" "C" []
      = [(⟨"A", "N", "C", "ok"⟩, 2)]
    ∧ refreshSpecificCheck (.ok ⟨"ok", none, [(), ()]⟩) "A" "N" "C" []
      ≠ [(⟨"A", "N", "C", "ok"⟩, 0)] :=
  ⟨by decide, by decide⟩

/-- C6 (amended): a successfully fetched result lacking an explicit
flagged-resource count is not an error: the value written for the fetched
status's tuple is the length of the result's flagged-resources slice (which
is 0 exactly when that slice is empty). -/
theorem magnitude_fallback_to_flagged_length (result : TrustedAdvisorCheckResult)
    (checkId checkName checkCategory : String) (g : GaugeSet)
    (hnone : hasExplicitFlaggedCount result = false) :
    refreshSpecificCheck (.ok result) checkId checkName checkCategory g
      = gaugeAdd
          (Statuses.foldl
            (fun acc s => deleteLabelValues acc ⟨checkId, checkName, checkCategory, s⟩) g)
          ⟨checkId, checkName, checkCategory, result.status⟩
          (result.flaggedResources.length : Int) := by
  rcases result with ⟨st, summ, fl⟩
  rcases summ with _ | ⟨⟨flagged⟩⟩
  · rfl
  · rcases flagged with _ | n
    · rfl
    · simp [hasExplicitFlaggedCount] at hnone

/-- C6 witness: the amended fallback at a concrete result with a present
summary but absent count and a singleton flagged-resources slice. -/
theorem magnitude_fallback_witness :
    hasExplicitFlaggedCount ⟨"warning", some ⟨none⟩, [()]⟩ = false
    ∧ refreshSpecificCheck (.ok ⟨"warning", some ⟨none⟩, [()]⟩) "B" "NB" "CB" []
      = gaugeAdd
          (Statuses.foldl
            (fun acc s => deleteLabelValues acc ⟨"B", "NB", "CB", s⟩) [])
          ⟨"B", "NB", "CB", "warning"⟩ 1 :=
  ⟨rfl, magnitude_fallback_to_flagged_length ⟨"warning", some ⟨none⟩, [()]⟩ "B" "NB" "CB" [] rfl⟩

/-- C7: when the result fetch fails, `refreshSpecificCheck` returns the gauge
set exactly as it was: no tuple is cleared or set, so every prior value for
the check (and for every other check) is left standing. -/
theorem fetch_failure_leaves_gauge_unchanged (e : String)
    (checkId checkName checkCategory : String) (g : GaugeSet) :
    refreshSpecificCheck (.error e) checkId checkName checkCategory g = g := rfl

/-- C8: when `LISTEN_ADDR` is unset the listen address defaults to `":2112"`;
when `REFRESH_PERIOD` is unset the refresh period defaults to 300 seconds
(through `Atoi "300"`); a set variable's value is used instead of the
fallback. -/
theorem config_defaults_and_overrides (env : String → Option String) (a p : String) :
    (env "LISTEN_ADDR" = none → getEnv env "LISTEN_ADDR" ":2112" = ":2112")
    ∧ (env "LISTEN_ADDR" = some a → getEnv env "LISTEN_ADDR" ":2112" = a)
    ∧ (env "REFRESH_PERIOD" = some p → getEnv env "REFRESH_PERIOD" "300" = p)
    ∧ (env "REFRESH_PERIOD" = none →
        mainReadConfig env = .ok (getEnv env "LISTEN_ADDR" ":2112", 300)) := by
  refine ⟨fun h => ?_, fun h => ?_, fun h => ?_, fun h => ?_⟩
  · simp [getEnv, h]
  · simp [getEnv, h]
  · simp [getEnv, h]
  · have hg : getEnv env "REFRESH_PERIOD" "300" = "300" := by simp [getEnv, h]
    unfold mainReadConfig
    rw [hg]
    rfl

/-- C8 witness: with `LISTEN_ADDR` set to `"0.0.0.0:9100"` and
`REFRESH_PERIOD` unset, the configured listen address is the set value and
the period is the default 300. -/
theorem config_defaults_and_overrides_witness :
    getEnv (fun k => if k = "LISTEN_ADDR" then some "0.0.0.0:9100" else none)
        "LISTEN_ADDR" ":2112" = "0.0.0.0:9100"
    ∧ mainReadConfig (fun k => if k = "LISTEN_ADDR" then some "0.0.0.0:9100" else none)
      = .ok ("0.0.0.0:9100", 300) := by
  have h := config_defaults_and_overrides
    (fun k => if k = "LISTEN_ADDR" then some "0.0.0.0:9100" else none) "0.0.0.0:9100" "300"
  refine ⟨h.2.1 (by decide), (h.2.2.2 (by decide)).trans ?_⟩
  rfl

/-- C10: any integer `REFRESH_PERIOD` string, zero and negative included,
passes the `Atoi` validation in `main` (only non-numeric strings are fatal
there), and a non-positive period then reaches the ticker construction in
`refreshChecksPeriodically`, where `time.NewTicker` panics. -/
theorem nonpositive_refresh_period_reaches_ticker
    (env : String → Option String) (s : String) (period : Int)
    (hset : env "REFRESH_PERIOD" = some s)
    (hparse : atoi s = .ok period)
    (hnp : period ≤ 0) :
    mainReadConfig env = .ok (getEnv env "LISTEN_ADDR" ":2112", period)
    ∧ refreshChecksPeriodicallyStart period = .panicked := by
  constructor
  · have hg : getEnv env "REFRESH_PERIOD" "300" = s := by simp [getEnv, hset]
    simp only [mainReadConfig, hg, hparse]
  · simp [refreshChecksPeriodicallyStart, hnp]

/-- C10 witness: `REFRESH_PERIOD = "-5"` passes configuration reading with
period `-5` and panics at ticker construction. -/
theorem nonpositive_refresh_period_witness :
    mainReadConfig (fun k => if k = "REFRESH_PERIOD" then some "-5" else none)
      = .ok (":2112", -5)
    ∧ refreshChecksPeriodicallyStart (-5) = .panicked := by
  have h := nonpositive_refresh_period_reaches_ticker
    (fun k => if k = "REFRESH_PERIOD" then some "-5" else none) "-5" (-5)
    (by decide) (by rfl) (by decide)
  exact ⟨h.1.trans (by rfl), h.2⟩

/-- The tuples the clear loop of `refreshSpecificCheck` removes for a check:
same checkid, name and category, and any status of the fixed enumeration. -/
def clearedTuple (checkId checkName checkCategory : String) (t : LabelTuple) : Bool :=
  decide (t.checkid = checkId ∧ t.name = checkName ∧ t.category = checkCategory
    ∧ t.status ∈ Statuses)

/-- The sub-gauge-set of series whose `checkid` label is `cid`: the tuples a
scraper sees for one check. -/
def restrictCheck (g : GaugeSet) (cid : String) : GaugeSet :=
  g.filter (fun p => decide (p.1.checkid = cid))

/-- The clear loop of `refreshSpecificCheck` keeps exactly the entries whose
tuple is not among the cleared ones. -/
theorem clearLoop_eq_filter (checkId checkName checkCategory : String) (g : GaugeSet) :
    Statuses.foldl
        (fun acc s => deleteLabelValues acc ⟨checkId, checkName, checkCategory, s⟩) g
      = g.filter (fun p => !clearedTuple checkId checkName checkCategory p.1) := by
  simp only [Statuses, List.foldl, deleteLabelValues, List.filter_filter]
  refine List.filter_congr ?_
  intro p hp
  rw [Bool.eq_iff_iff]
  rcases p with ⟨⟨cid, nm, cat, st⟩, v⟩
  simp only [Bool.and_eq_true, Bool.not_eq_true', decide_eq_false_iff_not, clearedTuple,
    Statuses, List.mem_cons, List.not_mem_nil, or_false, LabelTuple.mk.injEq]
  constructor
  · rintro ⟨h4, h3, h2, h1⟩ ⟨hc, hn, hk, hs⟩
    rcases hs with hs | hs | hs | hs
    · exact h1 ⟨hc, hn, hk, hs⟩
    · exact h2 ⟨hc, hn, hk, hs⟩
    · exact h3 ⟨hc, hn, hk, hs⟩
    · exact h4 ⟨hc, hn, hk, hs⟩
  · intro h
    refine ⟨fun hx => h ?_, fun hx => h ?_, fun hx => h ?_, fun hx => h ?_⟩
    · exact ⟨hx.1, hx.2.1, hx.2.2.1, Or.inr (Or.inr (Or.inr hx.2.2.2))⟩
    · exact ⟨hx.1, hx.2.1, hx.2.2.1, Or.inr (Or.inr (Or.inl hx.2.2.2))⟩
    · exact ⟨hx.1, hx.2.1, hx.2.2.1, Or.inr (Or.inl hx.2.2.2)⟩
    · exact ⟨hx.1, hx.2.1, hx.2.2.1, Or.inl hx.2.2.2⟩

/-- Filtering with `F` after the fact does not change a `R`-filtered list
when `R` implies `F`. -/
theorem filter_filter_of_imp {α : Type} (F R : α → Bool)
    (h : ∀ a, R a = true → F a = true) (l : List α) :
    (l.filter F).filter R = l.filter R := by
  induction l with
  | nil => rfl
  | cons hd tl ih =>
    by_cases hF : F hd = true
    · by_cases hR : R hd = true <;> simp [List.filter_cons, hF, hR, ih]
    · have hR : R hd = false := by
        cases hRb : R hd
        · rfl
        · exact absurd (h hd hRb) hF
      simp [List.filter_cons, hF, hR, ih]

/-- Adding to a tuple of another check does not change the series of `cid`
(map branch of `gaugeAdd`). -/
theorem filter_map_add_other (t : LabelTuple) (v : Int) (cid : String)
    (hne : t.checkid ≠ cid) (g : GaugeSet) :
    (g.map (fun p => if p.1 = t then (p.1, p.2 + v) else p)).filter
        (fun p => decide (p.1.checkid = cid))
      = g.filter (fun p => decide (p.1.checkid = cid)) := by
  induction g with
  | nil => rfl
  | cons hd tl ih =>
    by_cases ht : hd.1 = t
    · simp [List.filter_cons, ht, hne, ih]
    · by_cases hcid : hd.1.checkid = cid <;> simp [List.filter_cons, ht, hcid, ih]

/-- `gaugeAdd` on a tuple of another check leaves the series of `cid`
untouched. -/
theorem restrictCheck_gaugeAdd_other (g : GaugeSet) (t : LabelTuple) (v : Int)
    (cid : String) (hne : t.checkid ≠ cid) :
    restrictCheck (gaugeAdd g t v) cid = restrictCheck g cid := by
  unfold restrictCheck gaugeAdd
  by_cases hany : List.any g (fun p => decide (p.1 = t)) = true
  · rw [if_pos hany]
    exact filter_map_add_other t v cid hne g
  · rw [if_neg hany, List.filter_append]
    simp [hne]

/-- The clear loop for another check leaves the series of `cid` untouched. -/
theorem restrictCheck_clearLoop_other (checkId checkName checkCategory cid : String)
    (g : GaugeSet) (hne : checkId ≠ cid) :
    restrictCheck
        (Statuses.foldl
          (fun acc s => deleteLabelValues acc ⟨checkId, checkName, checkCategory, s⟩) g) cid
      = restrictCheck g cid := by
  rw [clearLoop_eq_filter]
  unfold restrictCheck
  refine filter_filter_of_imp _ _ ?_ g
  intro p hR
  simp only [decide_eq_true_eq] at hR
  simp only [Bool.not_eq_true', clearedTuple, decide_eq_false_iff_not]
  rintro ⟨h1, -⟩
  exact hne (by rw [← h1, hR])

/-- A whole `refreshSpecificCheck` of another check leaves the series of
`cid` untouched (frame property across checks). -/
theorem restrictCheck_refresh_other (fr : Except String TrustedAdvisorCheckResult)
    (checkId checkName checkCategory cid : String) (g : GaugeSet) (hne : checkId ≠ cid) :
    restrictCheck (refreshSpecificCheck fr checkId checkName checkCategory g) cid
      = restrictCheck g cid := by
  cases fr with
  | error e => rfl
  | ok result =>
    rw [refreshSpecificCheck_ok,
      restrictCheck_gaugeAdd_other _ ⟨checkId, checkName, checkCategory, result.status⟩ _ _ hne]
    exact restrictCheck_clearLoop_other _ _ _ _ _ hne

/-- A run of per-check tasks none of which is for `cid` leaves the series of
`cid` untouched. -/
theorem restrictCheck_runCycle_others (fetch : String → Except String TrustedAdvisorCheckResult)
    (cid : String) :
    ∀ (l : List TrustedAdvisorCheckDescription) (g : GaugeSet),
      (∀ d ∈ l, d.id ≠ cid) →
      restrictCheck (runCycle fetch l g) cid = restrictCheck g cid := by
  intro l
  induction l with
  | nil =>
    intro g h
    rfl
  | cons hd tl ih =>
    intro g h
    have hstep : runCycle fetch (hd :: tl) g
        = runCycle fetch tl (refreshSpecificCheck (fetch hd.id) hd.id hd.name hd.category g) :=
      rfl
    rw [hstep, ih _ (fun d hd2 => h d (List.mem_cons_of_mem _ hd2)),
      restrictCheck_refresh_other _ _ _ _ _ _ (h hd (List.mem_cons_self _ _))]

/-- After the clear loop of a check, no series of that check remains,
provided every prior series of the check carried its name, its category and
an enumerated status. -/
theorem restrict_filter_cleared_self (checkId checkName checkCategory : String) (g : GaugeSet)
    (hprior : ∀ p ∈ g, p.1.checkid = checkId →
      p.1.name = checkName ∧ p.1.category = checkCategory ∧ p.1.status ∈ Statuses) :
    (g.filter (fun p => !clearedTuple checkId checkName checkCategory p.1)).filter
        (fun p => decide (p.1.checkid = checkId)) = [] := by
  rw [List.filter_eq_nil_iff]
  intro p hp
  rw [List.mem_filter] at hp
  obtain ⟨hpg, hF⟩ := hp
  simp only [Bool.not_eq_true'] at hF
  simp only [decide_eq_true_eq]
  intro hcid
  have hrest := hprior p hpg hcid
  rw [clearedTuple] at hF
  simp only [decide_eq_false_iff_not] at hF
  exact hF ⟨hcid, hrest.1, hrest.2.1, hrest.2.2⟩

/-- `gaugeAdd` appends a fresh series when the tuple is absent. -/
theorem gaugeAdd_absent (g : GaugeSet) (t : LabelTuple) (v : Int)
    (h : ∀ p ∈ g, p.1 ≠ t) :
    gaugeAdd g t v = g ++ [(t, v)] := by
  unfold gaugeAdd
  have hany : List.any g (fun p => decide (p.1 = t)) = false := by
    rw [List.any_eq_false]
    intro p hp
    simp only [decide_eq_true_eq]
    exact h p hp
  rw [if_neg (by simp [hany])]

/-- The tuple written by a reconciliation is absent right after the clear
loop, when its status is among the enumerated ones. -/
theorem written_tuple_absent_after_clear (checkId checkName checkCategory status : String)
    (g : GaugeSet) (hstatus : status ∈ Statuses) :
    ∀ p ∈ g.filter (fun p => !clearedTuple checkId checkName checkCategory p.1),
      p.1 ≠ (⟨checkId, checkName, checkCategory, status⟩ : LabelTuple) := by
  intro p hp heq
  rw [List.mem_filter] at hp
  have hF := hp.2
  rw [heq] at hF
  simp [clearedTuple, hstatus] at hF

/-- C9: reconciliation is idempotent: for a fixed fetched result (with a
status from the fixed enumeration), running the clear-then-set sequence of
`refreshSpecificCheck` twice in a row leaves the gauge set in the same state
as running it once — every status tuple of the check is deleted before the
fetched status's value is written, so the write never accumulates. -/
theorem reconciliation_idempotent (result : TrustedAdvisorCheckResult)
    (checkId checkName checkCategory : String) (g : GaugeSet)
    (hstatus : result.status ∈ Statuses) :
    refreshSpecificCheck (.ok result) checkId checkName checkCategory
        (refreshSpecificCheck (.ok result) checkId checkName checkCategory g)
      = refreshSpecificCheck (.ok result) checkId checkName checkCategory g := by
  have hout := refreshSpecificCheck_ok result checkId checkName checkCategory
    (refreshSpecificCheck (.ok result) checkId checkName checkCategory g)
  have hin := refreshSpecificCheck_ok result checkId checkName checkCategory g
  rw [hout, hin, clearLoop_eq_filter, clearLoop_eq_filter]
  have habs := written_tuple_absent_after_clear checkId checkName checkCategory
    result.status g hstatus
  rw [gaugeAdd_absent _ _ _ habs, List.filter_append, List.filter_filter]
  have hself : (g.filter
        (fun p => (!clearedTuple checkId checkName checkCategory p.1)
          && (!clearedTuple checkId checkName checkCategory p.1)))
      = g.filter (fun p => !clearedTuple checkId checkName checkCategory p.1) :=
    List.filter_congr (fun a _ => Bool.and_self _)
  have hsingle : ([((⟨checkId, checkName, checkCategory, result.status⟩ : LabelTuple),
        magnitude result)].filter
          (fun p => !clearedTuple checkId checkName checkCategory p.1)) = [] := by
    simp [List.filter_cons, clearedTuple, hstatus]
  rw [hself, hsingle, List.append_nil]
  exact gaugeAdd_absent _ _ _ habs

/-- C9 witness: idempotence at a concrete result and a non-empty prior
gauge set. -/
theorem reconciliation_idempotent_witness :
    refreshSpecificCheck (.ok ⟨"ok", some ⟨some 5⟩, []⟩) "A" "N" "C"
        (refreshSpecificCheck (.ok ⟨"ok", some ⟨some 5⟩, []⟩) "A" "N" "C"
          [(⟨"A", "N", "C", "warning"⟩, 8)])
      = refreshSpecificCheck (.ok ⟨"ok", some ⟨some 5⟩, []⟩) "A" "N" "C"
          [(⟨"A", "N", "C", "warning"⟩, 8)] :=
  reconciliation_idempotent ⟨"ok", some ⟨some 5⟩, []⟩ "A" "N" "C"
    [(⟨"A", "N", "C", "warning"⟩, 8)] (by decide)

/-- C2: for a check of the last successful listing whose fetch succeeded with
an enumerated status, after a complete, uninterrupted refresh cycle the gauge
set contains exactly one label tuple with that checkid — the one for the
fetched status, holding the fetched magnitude — and zero tuples for the other
three statuses; the prior series of the check (same name, category and an
enumerated status) are all cleared, and no other listed check shares the
checkid. -/
theorem exactly_one_status_after_cycle
    (fetch : String → Except String TrustedAdvisorCheckResult)
    (l1 l2 : List TrustedAdvisorCheckDescription)
    (c : TrustedAdvisorCheckDescription) (result : TrustedAdvisorCheckResult) (g : GaugeSet)
    (hfetch : fetch c.id = .ok result)
    (hstatus : result.status ∈ Statuses)
    (hothers : ∀ d ∈ l1 ++ l2, d.id ≠ c.id)
    (hprior : ∀ p ∈ g, p.1.checkid = c.id →
      p.1.name = c.name ∧ p.1.category = c.category ∧ p.1.status ∈ Statuses) :
    restrictCheck (runCycle fetch (l1 ++ c :: l2) g) c.id
      = [(⟨c.id, c.name, c.category, result.status⟩, magnitude result)] := by
  have hsplit : runCycle fetch (l1 ++ c :: l2) g
      = runCycle fetch l2 (refreshSpecificCheck (fetch c.id) c.id c.name c.category
          (runCycle fetch l1 g)) := by
    simp [runCycle, List.foldl_append]
  rw [hsplit,
    restrictCheck_runCycle_others fetch c.id l2 _
      (fun d hd => hothers d (List.mem_append_right _ hd)),
    hfetch, refreshSpecificCheck_ok, clearLoop_eq_filter]
  have hrestrict1 : restrictCheck (runCycle fetch l1 g) c.id = restrictCheck g c.id :=
    restrictCheck_runCycle_others fetch c.id l1 g
      (fun d hd => hothers d (List.mem_append_left _ hd))
  have hprior1 : ∀ p ∈ runCycle fetch l1 g, p.1.checkid = c.id →
      p.1.name = c.name ∧ p.1.category = c.category ∧ p.1.status ∈ Statuses := by
    intro p hp hcid
    have hpr : p ∈ restrictCheck (runCycle fetch l1 g) c.id := by
      unfold restrictCheck
      rw [List.mem_filter]
      exact ⟨hp, by simp [hcid]⟩
    rw [hrestrict1] at hpr
    unfold restrictCheck at hpr
    rw [List.mem_filter] at hpr
    exact hprior p hpr.1 hcid
  have habs := written_tuple_absent_after_clear c.id c.name c.category
    result.status (runCycle fetch l1 g) hstatus
  rw [gaugeAdd_absent _ _ _ habs]
  unfold restrictCheck
  rw [List.filter_append, restrict_filter_cleared_self c.id c.name c.category _ hprior1]
  simp [List.filter_cons]

/-- C2 witness: a one-check listing whose check previously exported status
`warning` with value 8 and now fetches status `error` with flagged count 3:
after the cycle the check's series are exactly the `error` tuple at 3. -/
theorem exactly_one_status_after_cycle_witness :
    restrictCheck
        (runCycle (fun _ => .ok ⟨"error", some ⟨some 3⟩, []⟩)
          [⟨"A", "Check A", "cost_optimizing"⟩]
          [(⟨"A", "Check A", "cost_optimizing", "warning"⟩, 8)]) "A"
      = [(⟨"A", "Check A", "cost_optimizing", "error"⟩, 3)] :=
  (exactly_one_status_after_cycle (fun _ => .ok ⟨"error", some ⟨some 3⟩, []⟩)
    [] [] ⟨"A", "Check A", "cost_optimizing"⟩ ⟨"error", some ⟨some 3⟩, []⟩
    [(⟨"A", "Check A", "cost_optimizing", "warning"⟩, 8)]
    rfl (by decide) (by decide) (by decide)).trans (by decide)
